import Mathlib

/-
Verification of the request/translation layer of google-sheets-mcp
(source file src/sheets.py).

Strings are modelled as `List Char`.  Python string methods (split, strip,
str(bool).lower()) and urllib.parse.quote are embedded byte-faithfully; JSON
values are modelled by an inductive `JVal` whose objects keep insertion order,
matching Python dicts, and `json.dumps(obj, indent=2)` is embedded as
`json_dumps_indent2`.  The external dispatcher of the host framework is
modelled only by the shape of its outcome (`DispatchResult`), as described at
the interface boundary: dispatch(serviceName, request) yields
(success, response: (body), error: (message)).
-/

-- ---------------------------------------------------------------------------
-- Python string primitives
-- ---------------------------------------------------------------------------

/-- ASCII whitespace stripped by Python str.strip (space, tab, LF, CR, VT, FF). -/
def pyIsSpace (c : Char) : Bool :=
  c == ' ' || c == '\t' || c == '\n' || c == '\r' || c == Char.ofNat 11 || c == Char.ofNat 12

/-- Python str.strip(): drop whitespace from both ends. -/
def pyStrip (s : List Char) : List Char :=
  ((s.dropWhile pyIsSpace).reverse.dropWhile pyIsSpace).reverse

/-- Python str.split(sep) for a one-character separator: splitting the empty
string yields one empty segment, matching CPython. -/
def pySplit (sep : Char) : List Char → List (List Char)
  | [] => [[]]
  | c :: rest =>
    if c = sep then [] :: pySplit sep rest
    else
      match pySplit sep rest with
      | [] => [[c]]
      | s :: ss => (c :: s) :: ss

/-- Python str(b).lower() for a bool. -/
def pyBoolStr (b : Bool) : List Char :=
  if b then "true".toList else "false".toList

-- ---------------------------------------------------------------------------
-- Identifier encoder: _encode_range = urllib.parse.quote(s, safe="!:$(quote)(),-._~")
-- ---------------------------------------------------------------------------

/-- The characters of the safe argument passed to quote in _encode_range:
exclamation mark, colon, dollar, single quote (code 39), parentheses, comma,
hyphen, dot, underscore, tilde. -/
def quoteSafeExtra : List Char :=
  ['!', ':', '$', Char.ofNat 39, '(', ')', ',', '-', '.', '_', '~']

/-- A character whose byte quote leaves unencoded: urllib keeps ASCII letters,
digits and underscore, dot, hyphen, tilde always safe, plus the safe argument. -/
def isSafeChar (c : Char) : Bool :=
  (65 ≤ c.toNat && c.toNat ≤ 90) || (97 ≤ c.toNat && c.toNat ≤ 122) ||
    (48 ≤ c.toNat && c.toNat ≤ 57) || quoteSafeExtra.elem c

/-- UTF-8 bytes of one code point (quote encodes the UTF-8 bytes of the input). -/
def utf8Bytes (c : Char) : List Nat :=
  if c.toNat < 128 then [c.toNat]
  else if c.toNat < 2048 then
    [192 + c.toNat / 64, 128 + c.toNat % 64]
  else if c.toNat < 65536 then
    [224 + c.toNat / 4096, 128 + c.toNat / 64 % 64, 128 + c.toNat % 64]
  else
    [240 + c.toNat / 262144, 128 + c.toNat / 4096 % 64, 128 + c.toNat / 64 % 64,
      128 + c.toNat % 64]

/-- Uppercase hexadecimal digit, as in the %XX escapes produced by quote. -/
def hexUpper (n : Nat) : Char :=
  if n < 10 then Char.ofNat (48 + n) else Char.ofNat (55 + n)

/-- quote of a single byte: safe bytes pass through, the rest become %XX. -/
def encodeByte (b : Nat) : List Char :=
  if b < 128 then
    if isSafeChar (Char.ofNat b) then [Char.ofNat b]
    else ['%', hexUpper (b / 16), hexUpper (b % 16)]
  else ['%', hexUpper (b / 16), hexUpper (b % 16)]

/-- quote of a single character: encode each of its UTF-8 bytes. -/
def encodeChar (c : Char) : List Char :=
  (utf8Bytes c).flatMap encodeByte

/-- sheets.py line 50-52: URL-encode an A1 notation range, preserving safe
characters - quote(range_a1, safe with the eleven characters above). -/
def _encode_range (range_a1 : List Char) : List Char :=
  range_a1.flatMap encodeChar

/-- Remove every percent escape (a percent sign and the two characters after
it) from a string, leaving its raw, unencoded characters. -/
def stripEscapes : List Char → List Char
  | [] => []
  | c :: rest =>
    if c = '%' then
      match rest with
      | _ :: _ :: rest2 => stripEscapes rest2
      | _ => []
    else c :: stripEscapes rest

-- ---------------------------------------------------------------------------
-- JSON values and json.dumps(obj, indent=2)
-- ---------------------------------------------------------------------------

/-- JSON values; objects are ordered key-value lists, like Python dicts. -/
inductive JVal where
  | jnull
  | jbool (b : Bool)
  | jnum (n : Int)
  | jstr (s : List Char)
  | jarr (xs : List JVal)
  | jobj (kvs : List (List Char × JVal))

/-- Python truthiness of a JSON value: None, False, 0, empty string, empty
list and empty dict are falsy. -/
def jfalsy : JVal → Bool
  | .jnull => true
  | .jbool b => !b
  | .jnum n => n == 0
  | .jstr s => s.isEmpty
  | .jarr xs => xs.isEmpty
  | .jobj kvs => kvs.isEmpty

/-- Lowercase hexadecimal digit, as in the \uXXXX escapes of json.dumps. -/
def hexLower (n : Nat) : Char :=
  if n < 10 then Char.ofNat (48 + n) else Char.ofNat (87 + n)

/-- A four-digit \uXXXX escape. -/
def uEscape (n : Nat) : List Char :=
  ['\\', 'u', hexLower (n / 4096 % 16), hexLower (n / 256 % 16),
    hexLower (n / 16 % 16), hexLower (n % 16)]

/-- json.dumps escaping of one character inside a string literal (default
ensure_ascii=True): quote and backslash are escaped, the five short escapes
apply, other characters outside printable ASCII become \uXXXX, astral code
points become a surrogate pair. -/
def escapeChar (c : Char) : List Char :=
  if c = '"' then ['\\', '"']
  else if c = '\\' then ['\\', '\\']
  else if c = Char.ofNat 8 then ['\\', 'b']
  else if c = '\t' then ['\\', 't']
  else if c = '\n' then ['\\', 'n']
  else if c = Char.ofNat 12 then ['\\', 'f']
  else if c = '\r' then ['\\', 'r']
  else if 32 ≤ c.toNat && c.toNat ≤ 126 then [c]
  else if c.toNat < 65536 then uEscape c.toNat
  else uEscape (55296 + (c.toNat - 65536) / 1024) ++ uEscape (56320 + (c.toNat - 65536) % 1024)

/-- A JSON string literal: quote, escaped characters, quote. -/
def jStringLit (s : List Char) : List Char :=
  '"' :: (s.flatMap escapeChar ++ ['"'])

/-- Indentation at nesting level lvl for indent=2. -/
def indentStr (lvl : Nat) : List Char := List.replicate (2 * lvl) ' '

mutual

/-- json.dumps(v, indent=2), rendered at nesting level lvl.  Empty containers
print without newlines; non-empty containers put every item on its own line,
indented two further spaces, items separated by a comma and newline, keys
separated from values by a colon and space. -/
def dumpVal (lvl : Nat) : JVal → List Char
  | .jnull => "null".toList
  | .jbool b => if b then "true".toList else "false".toList
  | .jnum n => (toString n).toList
  | .jstr s => jStringLit s
  | .jarr [] => "[]".toList
  | .jarr (x :: xs) =>
      '[' :: '\n' :: (indentStr (lvl + 1) ++ dumpItems (lvl + 1) (x :: xs) ++
        '\n' :: (indentStr lvl ++ [']']))
  | .jobj [] => "\x7b\x7d".toList
  | .jobj (kv :: kvs) =>
      Char.ofNat 123 :: '\n' :: (indentStr (lvl + 1) ++ dumpMembers (lvl + 1) (kv :: kvs) ++
        '\n' :: (indentStr lvl ++ [Char.ofNat 125]))

/-- The ",\n"-separated items of a non-empty array. -/
def dumpItems (lvl : Nat) : List JVal → List Char
  | [] => []
  | [x] => dumpVal lvl x
  | x :: y :: ys => dumpVal lvl x ++ ',' :: '\n' :: (indentStr lvl ++ dumpItems lvl (y :: ys))

/-- The ",\n"-separated members of a non-empty object. -/
def dumpMembers (lvl : Nat) : List (List Char × JVal) → List Char
  | [] => []
  | [(k, v)] => jStringLit k ++ ':' :: ' ' :: dumpVal lvl v
  | (k, v) :: m :: ms =>
      (jStringLit k ++ ':' :: ' ' :: dumpVal lvl v) ++ ',' :: '\n' ::
        (indentStr lvl ++ dumpMembers lvl (m :: ms))

end

/-- json.dumps(v, indent=2). -/
def json_dumps_indent2 (v : JVal) : List Char := dumpVal 0 v

-- ---------------------------------------------------------------------------
-- Requests, dispatcher outcomes and the result normalizer _req
-- ---------------------------------------------------------------------------

inductive HttpMethod where
  | GET
  | POST
  | PUT
deriving DecidableEq

/-- The request handed to the external dispatcher: method, path (the query
string is part of the path, as in sheets.py f-strings) and optional JSON body. -/
structure HttpRequest where
  method : HttpMethod
  path : List Char
  body : Option JVal

/-- mcp.types.TextContent as used here: a type tag (always "text") and text. -/
structure TextContent where
  type : List Char
  text : List Char

/-- The response part of a dispatcher outcome; its body may be absent. -/
structure DispatchResponse where
  body : Option JVal

/-- The error part of a dispatcher outcome: a human-readable message. -/
structure DispatchError where
  message : List Char

/-- Outcome of ctx.dispatch: success flag, response and optional error. -/
structure DispatchResult where
  success : Bool
  response : DispatchResponse
  error : Option DispatchError

/-- Python resp.response.body or <empty dict>: an absent or falsy body is
replaced by the empty object. -/
def pyOrEmptyObj (b : Option JVal) : JVal :=
  match b with
  | none => .jobj []
  | some v => if jfalsy v then .jobj [] else v

/-- sheets.py lines 39-47: fold a dispatcher outcome into the uniform result
envelope.  The dispatch call itself is external I/O; _req here receives its
outcome.  On success the (defaulted) body is pretty-printed; on failure the
error message, or "Request failed" when the dispatcher supplies no error,
is wrapped as an error object. -/
def _req (resp : DispatchResult) : List TextContent :=
  if resp.success then
    [TextContent.mk "text".toList (json_dumps_indent2 (pyOrEmptyObj resp.response.body))]
  else
    [TextContent.mk "text".toList
      (json_dumps_indent2 (.jobj [("error".toList,
        .jstr (match resp.error with
               | some e => e.message
               | none => "Request failed".toList))]))]

-- ---------------------------------------------------------------------------
-- A JSON reader, used to state that envelope texts parse back to the intended
-- JSON value.  It covers the fragment this layer emits (objects, arrays,
-- strings with escapes, integers, booleans, null).
-- ---------------------------------------------------------------------------

/-- Skip JSON whitespace. -/
def skipWs (s : List Char) : List Char :=
  s.dropWhile (fun c => c == ' ' || c == '\t' || c == '\n' || c == '\r')

/-- Value of one hexadecimal digit. -/
def hexVal (c : Char) : Option Nat :=
  if 48 ≤ c.toNat && c.toNat ≤ 57 then some (c.toNat - 48)
  else if 65 ≤ c.toNat && c.toNat ≤ 70 then some (c.toNat - 55)
  else if 97 ≤ c.toNat && c.toNat ≤ 102 then some (c.toNat - 87)
  else none

/-- Decimal digit test. -/
def isDigitC (c : Char) : Bool := 48 ≤ c.toNat && c.toNat ≤ 57

/-- Digits to a natural number. -/
def digitsToNat (ds : List Char) : Nat :=
  ds.foldl (fun acc c => acc * 10 + (c.toNat - 48)) 0

/-- Read the body of a JSON string after the opening quote; returns the
decoded characters and the remainder after the closing quote. -/
def parseStringBody : Nat → List Char → Option (List Char × List Char)
  | 0, _ => none
  | _ + 1, [] => none
  | fuel + 1, c :: rest =>
    if c = '"' then some ([], rest)
    else if c = '\\' then
      match rest with
      | [] => none
      | e :: rest2 =>
        if e = 'u' then
          match rest2 with
          | a :: b :: c2 :: d :: rest3 =>
            match hexVal a, hexVal b, hexVal c2, hexVal d with
            | some ha, some hb, some hc, some hd =>
              let n := ha * 4096 + hb * 256 + hc * 16 + hd
              if n < 55296 || (57343 < n && n < 1114112) then
                match parseStringBody fuel rest3 with
                | some (s, rem) => some (Char.ofNat n :: s, rem)
                | none => none
              else none
            | _, _, _, _ => none
          | _ => none
        else
          match (if e = '"' then some '"' else if e = '\\' then some '\\'
                 else if e = '/' then some '/' else if e = 'b' then some (Char.ofNat 8)
                 else if e = 'f' then some (Char.ofNat 12) else if e = 'n' then some '\n'
                 else if e = 'r' then some '\r' else if e = 't' then some '\t'
                 else none) with
          | some d =>
            match parseStringBody fuel rest2 with
            | some (s, rem) => some (d :: s, rem)
            | none => none
          | none => none
    else
      match parseStringBody fuel rest with
      | some (s, rem) => some (c :: s, rem)
      | none => none

mutual

/-- Read one JSON value; fuel bounds the nesting recursion. -/
def parseVal : Nat → List Char → Option (JVal × List Char)
  | 0, _ => none
  | fuel + 1, s =>
    match skipWs s with
    | [] => none
    | c :: rest =>
      if c = '"' then
        match parseStringBody (rest.length + 1) rest with
        | some (str, rem) => some (.jstr str, rem)
        | none => none
      else if c = '[' then
        match skipWs rest with
        | ']' :: rem => some (.jarr [], rem)
        | _ =>
          match parseVal fuel rest with
          | some (v, rem) => parseArrTail fuel [v] rem
          | none => none
      else if c = Char.ofNat 123 then
        match skipWs rest with
        | ch :: _ =>
          if ch = Char.ofNat 125 then some (.jobj [], (skipWs rest).drop 1)
          else
            match parseMember fuel rest with
            | some (kv, rem2) => parseObjTail fuel [kv] rem2
            | none => none
        | [] => none
      else if c = 't' then
        match rest with
        | 'r' :: 'u' :: 'e' :: rem => some (.jbool true, rem)
        | _ => none
      else if c = 'f' then
        match rest with
        | 'a' :: 'l' :: 's' :: 'e' :: rem => some (.jbool false, rem)
        | _ => none
      else if c = 'n' then
        match rest with
        | 'u' :: 'l' :: 'l' :: rem => some (.jnull, rem)
        | _ => none
      else if c = '-' then
        match rest.takeWhile isDigitC with
        | [] => none
        | ds => some (.jnum (-(digitsToNat ds : Int)), rest.dropWhile isDigitC)
      else if isDigitC c then
        some (.jnum (digitsToNat ((c :: rest).takeWhile isDigitC)),
          (c :: rest).dropWhile isDigitC)
      else none

/-- Read one key-value member of an object. -/
def parseMember : Nat → List Char → Option ((List Char × JVal) × List Char)
  | 0, _ => none
  | fuel + 1, s =>
    match skipWs s with
    | c :: rest =>
      if c = '"' then
        match parseStringBody (rest.length + 1) rest with
        | some (k, rem) =>
          match skipWs rem with
          | ':' :: rem2 =>
            match parseVal fuel rem2 with
            | some (v, rem3) => some ((k, v), rem3)
            | none => none
          | _ => none
        | none => none
      else none
    | [] => none

/-- Read the remaining items of an array after its first item. -/
def parseArrTail : Nat → List JVal → List Char → Option (JVal × List Char)
  | 0, _, _ => none
  | fuel + 1, acc, s =>
    match skipWs s with
    | ',' :: rest =>
      match parseVal fuel rest with
      | some (v, rem) => parseArrTail fuel (acc ++ [v]) rem
      | none => none
    | ']' :: rest => some (.jarr acc, rest)
    | _ => none

/-- Read the remaining members of an object after its first member. -/
def parseObjTail : Nat → List (List Char × JVal) → List Char → Option (JVal × List Char)
  | 0, _, _ => none
  | fuel + 1, acc, s =>
    match skipWs s with
    | ',' :: rest =>
      match parseMember fuel rest with
      | some (kv, rem) => parseObjTail fuel (acc ++ [kv]) rem
      | none => none
    | c :: rest => if c = Char.ofNat 125 then some (.jobj acc, rest) else none
    | [] => none

end

/-- Parse a complete JSON text: one value followed only by whitespace. -/
def parseJson (s : List Char) : Option JVal :=
  match parseVal (s.length + 1) s with
  | some (v, rem) => if (skipWs rem).isEmpty then some v else none
  | none => none

-- ---------------------------------------------------------------------------
-- Request builders (one per tool).  Each builder returns the HttpRequest the
-- tool passes to the dispatcher; the tool's result is _req applied to the
-- dispatcher's outcome for that request.  Python keyword defaults
-- (major_dimension="ROWS", value_render_option="FORMATTED_VALUE",
-- date_time_render_option="SERIAL_NUMBER", value_input_option="USER_ENTERED",
-- include-in-response flags False, optional strings "") are passed explicitly
-- by callers here.
-- ---------------------------------------------------------------------------

/-- sheets.py lines 65-80: spreadsheet metadata.  includeGridData is always
emitted; ranges and fields only when the caller passes a non-empty string
(Python truthiness), each range segment split on commas and stripped. -/
def sheets_get_spreadsheet (spreadsheet_id : List Char) (include_grid_data : Bool)
    (ranges : List Char) (fields : List Char) : HttpRequest :=
  HttpRequest.mk .GET
    ("/v4/spreadsheets/".toList ++ (spreadsheet_id ++ ('?' ::
      List.intercalate ['&']
        (["includeGridData=".toList ++ pyBoolStr include_grid_data]
          ++ (if ranges.isEmpty then []
              else (pySplit ',' ranges).map (fun r => "ranges=".toList ++ pyStrip r))
          ++ (if fields.isEmpty then [] else ["fields=".toList ++ fields])))))
    none

/-- sheets.py lines 88-94: list sheets with a fixed field mask. -/
def sheets_list_sheets (spreadsheet_id : List Char) : HttpRequest :=
  HttpRequest.mk .GET
    ("/v4/spreadsheets/".toList ++ (spreadsheet_id ++
      "?fields=spreadsheetId,properties(title),sheets(properties(sheetId,title,index,gridProperties))".toList))
    none

/-- sheets.py lines 107-125: values of a single range; the range is encoded
into the path, the three rendering options are always emitted. -/
def sheets_get_values (spreadsheet_id range : List Char)
    (major_dimension value_render_option date_time_render_option : List Char) : HttpRequest :=
  HttpRequest.mk .GET
    ("/v4/spreadsheets/".toList ++ (spreadsheet_id ++ ("/values/".toList ++
      (_encode_range range ++ ('?' ::
        List.intercalate ['&']
          ["majorDimension=".toList ++ major_dimension,
           "valueRenderOption=".toList ++ value_render_option,
           "dateTimeRenderOption=".toList ++ date_time_render_option])))))
    none

/-- sheets.py lines 141-147: the query parameter list of batch get: the three
rendering options, then one ranges= pair per comma-separated segment, each
stripped, in caller order. -/
def batchGetParams (major_dimension value_render_option date_time_render_option
    ranges : List Char) : List (List Char) :=
  ["majorDimension=".toList ++ major_dimension,
   "valueRenderOption=".toList ++ value_render_option,
   "dateTimeRenderOption=".toList ++ date_time_render_option]
    ++ (pySplit ',' ranges).map (fun r => "ranges=".toList ++ pyStrip r)

/-- sheets.py lines 133-153: values of several ranges at once. -/
def sheets_batch_get_values (spreadsheet_id ranges : List Char)
    (major_dimension value_render_option date_time_render_option : List Char) : HttpRequest :=
  HttpRequest.mk .GET
    ("/v4/spreadsheets/".toList ++ (spreadsheet_id ++ ("/values:batchGet?".toList ++
      List.intercalate ['&']
        (batchGetParams major_dimension value_render_option date_time_render_option ranges))))
    none

/-- sheets.py lines 166-185: update a single range; the range is encoded into
the path, the body wraps the caller's 2-D grid as ("values": grid). -/
def sheets_update_values (spreadsheet_id range : List Char) (values : List (List JVal))
    (value_input_option : List Char) (include_values_in_response : Bool) : HttpRequest :=
  HttpRequest.mk .PUT
    ("/v4/spreadsheets/".toList ++ (spreadsheet_id ++ ("/values/".toList ++
      (_encode_range range ++ ('?' ::
        List.intercalate ['&']
          ["valueInputOption=".toList ++ value_input_option,
           "includeValuesInResponse=".toList ++ pyBoolStr include_values_in_response])))))
    (some (.jobj [("values".toList, .jarr (values.map .jarr))]))

/-- sheets.py lines 193-209: batch value update; the caller's data list goes
into the body unmodified under the two option fields. -/
def sheets_batch_update_values (spreadsheet_id : List Char) (data : List JVal)
    (value_input_option : List Char) (include_values_in_response : Bool) : HttpRequest :=
  HttpRequest.mk .POST
    ("/v4/spreadsheets/".toList ++ (spreadsheet_id ++ "/values:batchUpdate".toList))
    (some (.jobj [("valueInputOption".toList, .jstr value_input_option),
                  ("includeValuesInResponse".toList, .jbool include_values_in_response),
                  ("data".toList, .jarr data)]))

/-- sheets.py lines 217-238: append values after existing data. -/
def sheets_append_values (spreadsheet_id range : List Char) (values : List (List JVal))
    (value_input_option insert_data_option : List Char)
    (include_values_in_response : Bool) : HttpRequest :=
  HttpRequest.mk .POST
    ("/v4/spreadsheets/".toList ++ (spreadsheet_id ++ ("/values/".toList ++
      (_encode_range range ++ (":append?".toList ++
        List.intercalate ['&']
          ["valueInputOption=".toList ++ value_input_option,
           "insertDataOption=".toList ++ insert_data_option,
           "includeValuesInResponse=".toList ++ pyBoolStr include_values_in_response])))))
    (some (.jobj [("values".toList, .jarr (values.map .jarr))]))

/-- sheets.py lines 246-256: clear a range; empty object body. -/
def sheets_clear_values (spreadsheet_id range : List Char) : HttpRequest :=
  HttpRequest.mk .POST
    ("/v4/spreadsheets/".toList ++ (spreadsheet_id ++ ("/values/".toList ++
      (_encode_range range ++ ":clear".toList))))
    (some (.jobj []))

/-- sheets.py lines 269-283: structural batch update; the caller's request
objects go into the body verbatim. -/
def sheets_batch_update (spreadsheet_id : List Char) (requests : List JVal)
    (include_spreadsheet_in_response : Bool) : HttpRequest :=
  HttpRequest.mk .POST
    ("/v4/spreadsheets/".toList ++ (spreadsheet_id ++ ":batchUpdate".toList))
    (some (.jobj [("requests".toList, .jarr requests),
                  ("includeSpreadsheetInResponse".toList, .jbool include_spreadsheet_in_response)]))

/-- sheets.py lines 291-306: create a spreadsheet; the body always carries the
title, and one sheet-properties object per comma-separated, stripped sheet
title when sheet_titles is non-empty (Python truthiness). -/
def sheets_create (title sheet_titles : List Char) : HttpRequest :=
  HttpRequest.mk .POST "/v4/spreadsheets".toList
    (some (.jobj
      ([("properties".toList, .jobj [("title".toList, .jstr title)])]
        ++ (if sheet_titles.isEmpty then []
            else [("sheets".toList, .jarr ((pySplit ',' sheet_titles).map
              (fun t => .jobj [("properties".toList,
                .jobj [("title".toList, .jstr (pyStrip t))])])))]))))

/-- The query parameters of a built request: the text after the first question
mark of its path, split on ampersands. -/
def queryOfPath (path : List Char) : List (List Char) :=
  pySplit '&' ((path.dropWhile (fun c => c != '?')).drop 1)

-- ---------------------------------------------------------------------------
-- Lemmas about the encoder
-- ---------------------------------------------------------------------------

lemma isSafeChar_toNat_lt (c : Char) (h : isSafeChar c = true) : c.toNat < 128 := by
  simp only [isSafeChar, Bool.or_eq_true, Bool.and_eq_true, decide_eq_true_eq] at h
  rcases h with ((⟨_, h⟩ | ⟨_, h⟩) | ⟨_, h⟩) | h
  · omega
  · omega
  · omega
  · have hm : c ∈ quoteSafeExtra := List.elem_iff.mp h
    have hall : ∀ d ∈ quoteSafeExtra, d.toNat < 128 := by decide
    exact hall c hm

lemma utf8Bytes_ascii (c : Char) (h : c.toNat < 128) : utf8Bytes c = [c.toNat] := by
  simp [utf8Bytes, h]

lemma encodeChar_safe (c : Char) (h : isSafeChar c = true) : encodeChar c = [c] := by
  have hlt := isSafeChar_toNat_lt c h
  simp [encodeChar, utf8Bytes_ascii c hlt, encodeByte, hlt, Char.ofNat_toNat, h]

lemma encode_all_safe (s : List Char) (h : ∀ d ∈ s, isSafeChar d = true) :
    _encode_range s = s := by
  induction s with
  | nil => rfl
  | cons a rest ih =>
    rw [_encode_range, List.flatMap_cons, encodeChar_safe a (h a (by simp)),
      show rest.flatMap encodeChar = _encode_range rest from rfl,
      ih (fun d hd => h d (by simp [hd]))]
    rfl

lemma char_toNat_lt (c : Char) : c.toNat < 1114112 := by
  rcases c.valid with h | h
  · exact Nat.lt_trans h (by norm_num)
  · exact h.2

lemma mem_utf8Bytes_lt (c : Char) (b : Nat) (hb : b ∈ utf8Bytes c) : b < 256 := by
  have hv := char_toNat_lt c
  unfold utf8Bytes at hb
  split at hb
  · simp at hb; omega
  · split at hb
    · simp at hb; omega
    · split at hb
      · simp at hb; omega
      · simp at hb; omega

lemma utf8Bytes_ne_nil (c : Char) : utf8Bytes c ≠ [] := by
  unfold utf8Bytes
  split
  · simp
  · split
    · simp
    · split <;> simp

lemma unsafe_byte_escaped (c : Char) (hc : isSafeChar c = false) :
    ∀ b ∈ utf8Bytes c, encodeByte b = ['%', hexUpper (b / 16), hexUpper (b % 16)] := by
  intro b hb
  by_cases h128 : c.toNat < 128
  · rw [utf8Bytes_ascii c h128] at hb
    simp at hb
    subst hb
    simp [encodeByte, h128, Char.ofNat_toNat, hc]
  · have h256 : 128 ≤ b := by
      unfold utf8Bytes at hb
      rw [if_neg h128] at hb
      split at hb
      · simp at hb; omega
      · split at hb
        · simp at hb; omega
        · simp at hb; omega
    unfold encodeByte
    rw [if_neg (show ¬ b < 128 by omega)]

lemma encodeByte_length (b : Nat) : (encodeByte b).length = 1 ∨ (encodeByte b).length = 3 := by
  unfold encodeByte
  split
  · split
    · left; rfl
    · right; rfl
  · right; rfl

lemma encodeChar_length_pos (c : Char) : 1 ≤ (encodeChar c).length := by
  unfold encodeChar
  rcases h : utf8Bytes c with _ | ⟨b, bs⟩
  · exact absurd h (utf8Bytes_ne_nil c)
  · rw [List.flatMap_cons, List.length_append]
    rcases encodeByte_length b with h1 | h1 <;> omega

lemma encodeChar_unsafe_length (c : Char) (hc : isSafeChar c = false) :
    3 ≤ (encodeChar c).length := by
  have hesc := unsafe_byte_escaped c hc
  unfold encodeChar
  rcases h : utf8Bytes c with _ | ⟨b, bs⟩
  · exact absurd h (utf8Bytes_ne_nil c)
  · rw [List.flatMap_cons, List.length_append, hesc b (by rw [h]; simp)]
    simp

lemma encode_length_ge (s : List Char) : s.length ≤ (_encode_range s).length := by
  induction s with
  | nil => simp [_encode_range]
  | cons a rest ih =>
    have h1 := encodeChar_length_pos a
    rw [_encode_range, List.flatMap_cons, List.length_append,
      show rest.flatMap encodeChar = _encode_range rest from rfl]
    simp only [List.length_cons]
    omega

lemma encode_length_gt (s : List Char) (c : Char) (hc : isSafeChar c = false)
    (hmem : c ∈ s) : s.length < (_encode_range s).length := by
  induction s with
  | nil => cases hmem
  | cons a rest ih =>
    rw [_encode_range, List.flatMap_cons, List.length_append,
      show rest.flatMap encodeChar = _encode_range rest from rfl]
    simp only [List.length_cons]
    rcases List.mem_cons.mp hmem with heq | hmem2
    · have h3 : 3 ≤ (encodeChar a).length := by
        rw [← heq]; exact encodeChar_unsafe_length c hc
      have h4 := encode_length_ge rest
      omega
    · have h3 := encodeChar_length_pos a
      have h5 := ih hmem2
      omega

lemma stripEscapes_cons_of_ne (c : Char) (l : List Char) (h : ¬ c = '%') :
    stripEscapes (c :: l) = c :: stripEscapes l := by
  rw [stripEscapes.eq_def]
  simp [h]

lemma stripEscapes_escape (h1 h2 : Char) (l : List Char) :
    stripEscapes ('%' :: h1 :: h2 :: l) = stripEscapes l := by
  rw [stripEscapes.eq_def]
  simp

lemma stripEscapes_chunk (bs : List Nat) (L : List Char)
    (h : ∀ b ∈ bs, encodeByte b = ['%', hexUpper (b / 16), hexUpper (b % 16)]) :
    stripEscapes (bs.flatMap encodeByte ++ L) = stripEscapes L := by
  induction bs with
  | nil => simp
  | cons b bs ih =>
    rw [List.flatMap_cons, List.append_assoc, h b (by simp),
      show ['%', hexUpper (b / 16), hexUpper (b % 16)] ++ (bs.flatMap encodeByte ++ L)
        = '%' :: hexUpper (b / 16) :: hexUpper (b % 16) :: (bs.flatMap encodeByte ++ L)
        from rfl,
      stripEscapes_escape]
    exact ih (fun b2 hb2 => h b2 (by simp [hb2]))

lemma stripEscapes_encode (s : List Char) :
    stripEscapes (_encode_range s) = s.filter isSafeChar := by
  induction s with
  | nil => rfl
  | cons a rest ih =>
    rw [_encode_range, List.flatMap_cons,
      show rest.flatMap encodeChar = _encode_range rest from rfl]
    by_cases h : isSafeChar a = true
    · have hne : ¬ a = '%' := by
        intro e; rw [e] at h; exact absurd h (by decide)
      rw [encodeChar_safe a h,
        show [a] ++ _encode_range rest = a :: _encode_range rest from rfl,
        stripEscapes_cons_of_ne a _ hne, ih, List.filter_cons_of_pos h]
    · have h' : isSafeChar a = false := by
        cases hh : isSafeChar a
        · rfl
        · exact absurd hh h
      rw [show encodeChar a = (utf8Bytes a).flatMap encodeByte from rfl,
        stripEscapes_chunk _ _ (unsafe_byte_escaped a h'), ih,
        List.filter_cons_of_neg (by simp [h'])]

lemma hexUpper_safe (n : Nat) (h : n < 16) : isSafeChar (hexUpper n) = true := by
  interval_cases n <;> decide

lemma mem_encodeByte (b : Nat) (hb : b < 256) (c : Char) (hc : c ∈ encodeByte b) :
    isSafeChar c = true ∨ c = '%' := by
  unfold encodeByte at hc
  split at hc
  · split at hc
    · simp at hc; subst hc; left; assumption
    · simp at hc
      rcases hc with rfl | rfl | rfl
      · right; rfl
      · left; exact hexUpper_safe _ (by omega)
      · left; exact hexUpper_safe _ (by omega)
  · simp at hc
    rcases hc with rfl | rfl | rfl
    · right; rfl
    · left; exact hexUpper_safe _ (by omega)
    · left; exact hexUpper_safe _ (by omega)

lemma mem_encode_safe_or_pct (s : List Char) (c : Char) (h : c ∈ _encode_range s) :
    isSafeChar c = true ∨ c = '%' := by
  rw [_encode_range] at h
  rcases List.mem_flatMap.mp h with ⟨a, _, ha2⟩
  rw [encodeChar] at ha2
  rcases List.mem_flatMap.mp ha2 with ⟨b, hb1, hb2⟩
  exact mem_encodeByte b (mem_utf8Bytes_lt a b hb1) c hb2

-- ---------------------------------------------------------------------------
-- Lemmas about paths and query strings
-- ---------------------------------------------------------------------------

lemma dropWhile_append_of_all {p : Char → Bool} (l1 l2 : List Char)
    (h : ∀ a ∈ l1, p a = true) :
    (l1 ++ l2).dropWhile p = l2.dropWhile p := by
  induction l1 with
  | nil => rfl
  | cons a rest ih =>
    rw [List.cons_append, List.dropWhile_cons, if_pos (h a (by simp))]
    exact ih (fun d hd => h d (by simp [hd]))

lemma qmark_not_mem_encode (s : List Char) : '?' ∉ _encode_range s := by
  intro hm
  rcases mem_encode_safe_or_pct s '?' hm with h | h
  · exact absurd h (by decide)
  · exact absurd h (by decide)

lemma queryOfPath_skip (a b : List Char) (h : ∀ c ∈ a, c ≠ '?') :
    queryOfPath (a ++ b) = queryOfPath b := by
  unfold queryOfPath
  rw [dropWhile_append_of_all a b (fun d hd => bne_iff_ne.mpr (h d hd))]

lemma isPrefixOf_append_self (l1 l2 : List Char) :
    List.isPrefixOf l1 (l1 ++ l2) = true := by
  induction l1 with
  | nil => simp [List.isPrefixOf]
  | cons a rest ih => simp [List.isPrefixOf, ih]

-- ---------------------------------------------------------------------------
-- Claims
-- ---------------------------------------------------------------------------

/-- C1: _encode_range returns unchanged every string made only of characters
from the allow-listed safe set and the unreserved ASCII letters, digits,
underscore, dot, hyphen and tilde; for a string containing an unsafe
character, the output differs from the input and that character does not
occur raw in the output: it is absent once percent escapes are removed, and,
unless it is the percent sign itself (which reappears only as the escape
introducer), absent altogether; the encoder is total. -/
theorem encode_range_correct (s : List Char) (c : Char) :
    ((∀ d ∈ s, isSafeChar d = true) → _encode_range s = s) ∧
    (isSafeChar c = false → c ∈ s →
      _encode_range s ≠ s ∧
      c ∉ stripEscapes (_encode_range s) ∧
      (c ≠ '%' → c ∉ _encode_range s)) ∧
    (∃ out, _encode_range s = out) := by
  refine ⟨encode_all_safe s, fun hc hmem => ⟨?_, ?_, ?_⟩, ⟨_, rfl⟩⟩
  · intro heq
    have hlen := encode_length_gt s c hc hmem
    rw [heq] at hlen
    omega
  · rw [stripEscapes_encode]
    intro hmem2
    have hp := (List.mem_filter.mp hmem2).2
    simp [hc] at hp
  · intro hne hmem3
    rcases mem_encode_safe_or_pct s c hmem3 with h | h
    · simp [hc] at h
    · exact hne h

theorem encode_range_correct_witness :
    (∀ d ∈ "Sheet1!A1:B10".toList, isSafeChar d = true) ∧
    _encode_range "Sheet1!A1:B10".toList = "Sheet1!A1:B10".toList ∧
    isSafeChar ' ' = false ∧ ' ' ∈ "Sheet 1".toList ∧
    _encode_range "Sheet 1".toList ≠ "Sheet 1".toList ∧
    ' ' ∉ stripEscapes (_encode_range "Sheet 1".toList) ∧
    (' ' ≠ '%' → ' ' ∉ _encode_range "Sheet 1".toList) := by
  have h1 := (encode_range_correct "Sheet1!A1:B10".toList ' ').1 (by decide)
  have h2 := (encode_range_correct "Sheet 1".toList ' ').2.1 (by decide) (by decide)
  exact ⟨by decide, h1, by decide, by decide, h2.1, h2.2.1, h2.2.2⟩

/-- C2: the update-values request for spreadsheet id abc123 and range
Sheet 1!A1:B2 has a path that begins with exactly
/v4/spreadsheets/abc123/values/Sheet%201!A1:B2 - the exclamation mark and
colon stay literal and the space becomes %20; the rest of the path is the
query string. -/
theorem update_values_path_literal :
    List.isPrefixOf "/v4/spreadsheets/abc123/values/Sheet%201!A1:B2".toList
      (sheets_update_values "abc123".toList "Sheet 1!A1:B2".toList
        [[JVal.jstr "x".toList]] "USER_ENTERED".toList false).path = true ∧
    (sheets_update_values "abc123".toList "Sheet 1!A1:B2".toList
        [[JVal.jstr "x".toList]] "USER_ENTERED".toList false).path =
      "/v4/spreadsheets/abc123/values/Sheet%201!A1:B2".toList ++
        "?valueInputOption=USER_ENTERED&includeValuesInResponse=false".toList := by
  exact ⟨by decide, by decide⟩

/-- C3: whenever the dispatcher reports failure and supplies no error, the
envelope is the single text content whose text parses as JSON to exactly the
object mapping "error" to "Request failed". -/
theorem req_failure_fallback (resp : DispatchResult)
    (h1 : resp.success = false) (h2 : resp.error = none) :
    _req resp =
      [TextContent.mk "text".toList "\x7b\n  \"error\": \"Request failed\"\n\x7d".toList] ∧
    parseJson "\x7b\n  \"error\": \"Request failed\"\n\x7d".toList =
      some (JVal.jobj [("error".toList, JVal.jstr "Request failed".toList)]) := by
  constructor
  · unfold _req
    rw [if_neg (by simp [h1]), h2]
    rfl
  · rfl

theorem req_failure_fallback_witness :
    (DispatchResult.mk false (DispatchResponse.mk none) none).success = false ∧
    (DispatchResult.mk false (DispatchResponse.mk none) none).error = none ∧
    _req (DispatchResult.mk false (DispatchResponse.mk none) none) =
      [TextContent.mk "text".toList "\x7b\n  \"error\": \"Request failed\"\n\x7d".toList] ∧
    parseJson "\x7b\n  \"error\": \"Request failed\"\n\x7d".toList =
      some (JVal.jobj [("error".toList, JVal.jstr "Request failed".toList)]) := by
  have h := req_failure_fallback (DispatchResult.mk false (DispatchResponse.mk none) none)
    rfl rfl
  exact ⟨rfl, rfl, h.1, h.2⟩

/-- C4: on every dispatcher success the envelope text is the 2-space-indented
pretty-printing of the response body, an absent body defaulting to the empty
object; in particular the body mapping "values" to [["x"]] yields exactly the
expected indented text, and that text parses back to the original body. -/
theorem req_success_envelope (resp : DispatchResult) (h : resp.success = true) :
    _req resp =
      [TextContent.mk "text".toList (json_dumps_indent2 (pyOrEmptyObj resp.response.body))] ∧
    _req (DispatchResult.mk true (DispatchResponse.mk
        (some (JVal.jobj [("values".toList, JVal.jarr [JVal.jarr [JVal.jstr "x".toList]])]))) none) =
      [TextContent.mk "text".toList
        "\x7b\n  \"values\": [\n    [\n      \"x\"\n    ]\n  ]\n\x7d".toList] ∧
    parseJson "\x7b\n  \"values\": [\n    [\n      \"x\"\n    ]\n  ]\n\x7d".toList =
      some (JVal.jobj [("values".toList, JVal.jarr [JVal.jarr [JVal.jstr "x".toList]])]) ∧
    _req (DispatchResult.mk true (DispatchResponse.mk none) none) =
      [TextContent.mk "text".toList "\x7b\x7d".toList] := by
  refine ⟨?_, rfl, rfl, rfl⟩
  unfold _req
  rw [if_pos h]

theorem req_success_envelope_witness :
    (DispatchResult.mk true (DispatchResponse.mk (some (JVal.jarr [JVal.jnum 7]))) none).success
        = true ∧
    _req (DispatchResult.mk true (DispatchResponse.mk (some (JVal.jarr [JVal.jnum 7]))) none) =
      [TextContent.mk "text".toList (json_dumps_indent2 (pyOrEmptyObj
        (DispatchResult.mk true (DispatchResponse.mk (some (JVal.jarr [JVal.jnum 7]))) none).response.body))] := by
  have h := req_success_envelope
    (DispatchResult.mk true (DispatchResponse.mk (some (JVal.jarr [JVal.jnum 7]))) none) rfl
  exact ⟨rfl, h.1⟩

/-- C5: batch get values with ranges "Sheet1!A1,Sheet1!B2" yields exactly two
ranges= query pairs, in caller order, each stripped; in general (with the
default option values) the ranges= pairs of the parameter list are exactly
the comma-split, stripped segments of the caller input, in order. -/
theorem batch_get_ranges_pairs :
    (queryOfPath (sheets_batch_get_values "abc123".toList "Sheet1!A1,Sheet1!B2".toList
        "ROWS".toList "FORMATTED_VALUE".toList "SERIAL_NUMBER".toList).path).filter
      (fun p => List.isPrefixOf "ranges=".toList p) =
      ["ranges=Sheet1!A1".toList, "ranges=Sheet1!B2".toList] ∧
    ∀ ranges : List Char,
      (batchGetParams "ROWS".toList "FORMATTED_VALUE".toList "SERIAL_NUMBER".toList
          ranges).filter (fun p => List.isPrefixOf "ranges=".toList p) =
        (pySplit ',' ranges).map (fun r => "ranges=".toList ++ pyStrip r) := by
  constructor
  · decide
  · intro ranges
    unfold batchGetParams
    rw [List.filter_append]
    rw [show List.filter (fun p => List.isPrefixOf "ranges=".toList p)
        ["majorDimension=".toList ++ "ROWS".toList,
         "valueRenderOption=".toList ++ "FORMATTED_VALUE".toList,
         "dateTimeRenderOption=".toList ++ "SERIAL_NUMBER".toList] = [] from by decide,
      List.nil_append]
    refine List.filter_eq_self.mpr ?_
    intro a ha
    rcases List.mem_map.mp ha with ⟨r, _, rfl⟩
    exact isPrefixOf_append_self _ _

/-- C6: get values with both option parameters at their Python defaults emits
exactly the three query pairs majorDimension=ROWS,
valueRenderOption=FORMATTED_VALUE and dateTimeRenderOption=SERIAL_NUMBER,
for every spreadsheet id (not containing a question mark) and every range. -/
theorem get_values_default_options (spreadsheet_id range : List Char)
    (h : '?' ∉ spreadsheet_id) :
    queryOfPath (sheets_get_values spreadsheet_id range "ROWS".toList
        "FORMATTED_VALUE".toList "SERIAL_NUMBER".toList).path =
      ["majorDimension=ROWS".toList, "valueRenderOption=FORMATTED_VALUE".toList,
       "dateTimeRenderOption=SERIAL_NUMBER".toList] := by
  show queryOfPath ("/v4/spreadsheets/".toList ++ (spreadsheet_id ++ ("/values/".toList ++
      (_encode_range range ++ ('?' :: List.intercalate ['&']
        ["majorDimension=".toList ++ "ROWS".toList,
         "valueRenderOption=".toList ++ "FORMATTED_VALUE".toList,
         "dateTimeRenderOption=".toList ++ "SERIAL_NUMBER".toList]))))) = _
  rw [queryOfPath_skip _ _ (by decide),
    queryOfPath_skip _ _ (fun d hd e => h (e ▸ hd)),
    queryOfPath_skip _ _ (by decide),
    queryOfPath_skip _ _ (fun d hd e => qmark_not_mem_encode range (e ▸ hd))]
  decide

theorem get_values_default_options_witness :
    '?' ∉ "abc123".toList ∧
    queryOfPath (sheets_get_values "abc123".toList "Sheet1!A1:B10".toList "ROWS".toList
        "FORMATTED_VALUE".toList "SERIAL_NUMBER".toList).path =
      ["majorDimension=ROWS".toList, "valueRenderOption=FORMATTED_VALUE".toList,
       "dateTimeRenderOption=SERIAL_NUMBER".toList] := by
  exact ⟨by decide,
    get_values_default_options "abc123".toList "Sheet1!A1:B10".toList (by decide)⟩

/-- C7: create with title Budget and sheet_titles "Jan, Feb" builds the body
mapping properties.title to Budget and sheets to one sheet-properties object
per comma-split, stripped title; in general a non-empty sheet_titles string
contributes exactly that sheets list. -/
theorem create_with_sheet_titles :
    (sheets_create "Budget".toList "Jan, Feb".toList).body =
      some (JVal.jobj
        [("properties".toList, JVal.jobj [("title".toList, JVal.jstr "Budget".toList)]),
         ("sheets".toList, JVal.jarr
           [JVal.jobj [("properties".toList,
              JVal.jobj [("title".toList, JVal.jstr "Jan".toList)])],
            JVal.jobj [("properties".toList,
              JVal.jobj [("title".toList, JVal.jstr "Feb".toList)])]])]) ∧
    ∀ title sheet_titles : List Char, sheet_titles.isEmpty = false →
      (sheets_create title sheet_titles).body =
        some (JVal.jobj
          [("properties".toList, JVal.jobj [("title".toList, JVal.jstr title)]),
           ("sheets".toList, JVal.jarr ((pySplit ',' sheet_titles).map
             (fun t => JVal.jobj [("properties".toList,
               JVal.jobj [("title".toList, JVal.jstr (pyStrip t))])])))]) := by
  constructor
  · rfl
  · intro title sheet_titles hts
    simp [sheets_create, hts]

theorem create_with_sheet_titles_witness :
    ("Jan, Feb".toList).isEmpty = false ∧
    (sheets_create "Budget".toList "Jan, Feb".toList).body =
      some (JVal.jobj
        [("properties".toList, JVal.jobj [("title".toList, JVal.jstr "Budget".toList)]),
         ("sheets".toList, JVal.jarr (( pySplit ',' "Jan, Feb".toList).map
           (fun t => JVal.jobj [("properties".toList,
             JVal.jobj [("title".toList, JVal.jstr (pyStrip t))])])))]) := by
  exact ⟨by decide,
    (create_with_sheet_titles).2 "Budget".toList "Jan, Feb".toList (by decide)⟩

/-- C8: the batch-update-values body is exactly the object with
valueInputOption, includeValuesInResponse and data, the caller's data list -
including any range strings inside it - embedded unmodified; shown both in
general and on a data item whose range contains a space, which stays raw. -/
theorem batch_update_values_body_frame (spreadsheet_id : List Char) (data : List JVal)
    (value_input_option : List Char) (include_values_in_response : Bool) :
    (sheets_batch_update_values spreadsheet_id data value_input_option
        include_values_in_response).body =
      some (JVal.jobj [("valueInputOption".toList, JVal.jstr value_input_option),
        ("includeValuesInResponse".toList, JVal.jbool include_values_in_response),
        ("data".toList, JVal.jarr data)]) ∧
    (sheets_batch_update_values "abc123".toList
        [JVal.jobj [("range".toList, JVal.jstr "Sheet 1!A1".toList),
          ("values".toList, JVal.jarr [JVal.jarr [JVal.jstr "x".toList]])]]
        "USER_ENTERED".toList false).body =
      some (JVal.jobj [("valueInputOption".toList, JVal.jstr "USER_ENTERED".toList),
        ("includeValuesInResponse".toList, JVal.jbool false),
        ("data".toList, JVal.jarr
          [JVal.jobj [("range".toList, JVal.jstr "Sheet 1!A1".toList),
            ("values".toList, JVal.jarr [JVal.jarr [JVal.jstr "x".toList]])]])]) := by
  exact ⟨rfl, rfl⟩

/-- C9: with ranges equal to the empty string, batch get values still emits
one ranges= pair with empty value (splitting the empty string yields one
empty segment), while get spreadsheet metadata emits no ranges= pair at all
(the empty string is treated as absent by Python truthiness). -/
theorem empty_ranges_split_asymmetry :
    (queryOfPath (sheets_batch_get_values "abc123".toList [] "ROWS".toList
        "FORMATTED_VALUE".toList "SERIAL_NUMBER".toList).path).filter
      (fun p => List.isPrefixOf "ranges=".toList p) = ["ranges=".toList] ∧
    (queryOfPath (sheets_get_spreadsheet "abc123".toList false [] []).path).filter
      (fun p => List.isPrefixOf "ranges=".toList p) = [] := by
  exact ⟨by decide, by decide⟩

/-- C10: on a dispatcher success whose body is present but falsy (empty list,
empty string, zero, false), _req serializes the empty object, so the envelope
text is exactly the two braces; a truthy body is serialized as-is. -/
theorem req_falsy_body_replaced (resp : DispatchResult) (body : JVal)
    (h1 : resp.success = true) (h2 : resp.response.body = some body) :
    (jfalsy body = true →
      _req resp = [TextContent.mk "text".toList "\x7b\x7d".toList]) ∧
    (jfalsy body = false →
      _req resp = [TextContent.mk "text".toList (json_dumps_indent2 body)]) ∧
    _req (DispatchResult.mk true (DispatchResponse.mk (some (JVal.jarr []))) none) =
      [TextContent.mk "text".toList "\x7b\x7d".toList] ∧
    _req (DispatchResult.mk true (DispatchResponse.mk (some (JVal.jstr []))) none) =
      [TextContent.mk "text".toList "\x7b\x7d".toList] ∧
    _req (DispatchResult.mk true (DispatchResponse.mk (some (JVal.jnum 0))) none) =
      [TextContent.mk "text".toList "\x7b\x7d".toList] ∧
    _req (DispatchResult.mk true (DispatchResponse.mk (some (JVal.jbool false))) none) =
      [TextContent.mk "text".toList "\x7b\x7d".toList] ∧
    json_dumps_indent2 (JVal.jarr []) = "[]".toList ∧
    json_dumps_indent2 (JVal.jbool false) = "false".toList := by
  have hsucc : _req resp = [TextContent.mk "text".toList
      (json_dumps_indent2 (pyOrEmptyObj resp.response.body))] := by
    unfold _req
    rw [if_pos h1]
  refine ⟨?_, ?_, rfl, rfl, rfl, rfl, rfl, rfl⟩
  · intro hf
    rw [hsucc, h2]
    simp [pyOrEmptyObj, hf]
    rfl
  · intro hf
    rw [hsucc, h2]
    simp [pyOrEmptyObj, hf]

theorem req_falsy_body_replaced_witness :
    (DispatchResult.mk true (DispatchResponse.mk (some (JVal.jarr []))) none).success = true ∧
    (DispatchResult.mk true (DispatchResponse.mk (some (JVal.jarr []))) none).response.body
      = some (JVal.jarr []) ∧
    jfalsy (JVal.jarr []) = true ∧
    _req (DispatchResult.mk true (DispatchResponse.mk (some (JVal.jarr []))) none) =
      [TextContent.mk "text".toList "\x7b\x7d".toList] := by
  have h := req_falsy_body_replaced
    (DispatchResult.mk true (DispatchResponse.mk (some (JVal.jarr []))) none)
    (JVal.jarr []) rfl rfl
  exact ⟨rfl, rfl, rfl, h.1 rfl⟩
